import Mathlib

/-!
Verification of the i18n localization scripts of the AI-Services repository.

The repository contains five near-duplicate DOM scripts. We embed the
translation-bundle data model (JSON-like values), the dotted-key resolvers
(`getNestedValue` in script.js / part_002 and the inline key walk of
part_003), the content synchronizer (`updateContent` and its helpers), the
language-selection logic (`initLanguage` / `initializeLanguage`), and the
bundle loaders (`loadTranslations`), and prove or refute the specified
properties about them.

Naming convention: namespace `Script` embeds src/script.js, `Part002`
embeds src/unnamed/part_002, `Part003` embeds src/unnamed/part_003,
`Part000I18n` embeds the i18n script inside src/unnamed/part_000 (the
variant with the isInitialLoad flag), and `Part001` embeds
src/unnamed/part_001.
-/

/-- JavaScript values as they occur in the translation bundles: strings,
null, undefined, and nested objects (association lists of fields). Numbers
and arrays do not occur in the i18n payload and are not modeled. -/
inductive JValue : Type where
  | vStr : String → JValue
  | vNull : JValue
  | vUndefined : JValue
  | vObj : List (String × JValue) → JValue

/-- Field lookup in a JS object: a missing field reads as undefined. -/
def lookupField : List (String × JValue) → String → JValue
  | [], _ => JValue.vUndefined
  | (k, v) :: rest, key => if k = key then v else lookupField rest key

/-- JS property access `v[key]` as used on already-guarded receivers:
objects look up the field, all other values yield undefined. (The sources
only ever index a receiver after a truthiness guard, so the throwing cases
of real JS never arise there; part_003 line 42 is the exception and is
modeled separately by `Part003.memberAccess`.) -/
def propAccess : JValue → String → JValue
  | JValue.vObj fields, k => lookupField fields k
  | _, _ => JValue.vUndefined

/-- JS truthiness of a value: empty string, null and undefined are falsy,
objects and non-empty strings are truthy. -/
def truthy : JValue → Bool
  | JValue.vStr s => if s = "" then false else true
  | JValue.vNull => false
  | JValue.vUndefined => false
  | JValue.vObj _ => true

/-- Discriminator for undefined, used to embed `x !== undefined` checks. -/
def isUndefinedB : JValue → Bool
  | JValue.vUndefined => true
  | _ => false

/-- Discriminator for null, used to embed `x !== null` checks. -/
def isNullB : JValue → Bool
  | JValue.vNull => true
  | _ => false

/-- The presence check of the updateContent loops:
`value !== undefined && value !== null`. -/
def isPresent (v : JValue) : Bool := !(isUndefinedB v) && !(isNullB v)

/-- A resolution outcome counts as absent when it is undefined or null:
exactly the values the updateContent loops skip. -/
def absent (v : JValue) : Prop := v = JValue.vUndefined ∨ v = JValue.vNull

/-- JS string coercion of a value assigned to a DOM string sink
(document.title, setAttribute, textContent). -/
def jsToString : JValue → String
  | JValue.vStr s => s
  | JValue.vNull => "null"
  | JValue.vUndefined => "undefined"
  | JValue.vObj _ => "[object Object]"

/-- Splitting a character list on a separator, JS `String.split` style:
the empty input gives one empty group, separators at the edges give empty
groups. -/
def splitCharAux (sep : Char) : List Char → List (List Char)
  | [] => [[]]
  | c :: rest =>
    match splitCharAux sep rest with
    | [] => [[]]
    | g :: gs => if c = sep then [] :: g :: gs else (c :: g) :: gs

/-- JS `s.split(sep)` for a one-character separator. -/
def splitChar (sep : Char) (s : String) : List String :=
  (splitCharAux sep s.toList).map String.mk

/-- JS `path.split(".")` as used by every dotted-key resolver. -/
def splitDot (s : String) : List String := splitChar '.' s

/-- Prefix test on character lists. -/
def charsPrefix : List Char → List Char → Bool
  | [], _ => true
  | _ :: _, [] => false
  | p :: ps, c :: cs => if p = c then charsPrefix ps cs else false

/-- JS `s.startsWith(p)`. -/
def strStartsWith (s p : String) : Bool := charsPrefix p.toList s.toList

/-- Truthiness of a nullable JS string (localStorage.getItem or
URLSearchParams.get result): null and the empty string are falsy. -/
def strOptTruthy : Option String → Bool
  | none => false
  | some s => if s = "" then false else true

namespace Script

/-- One step of the reduce in script.js getNestedValue (lines 204-208):
`current && current[key] !== undefined ? current[key] : undefined`. -/
def resolveStepU (current : JValue) (key : String) : JValue :=
  if truthy current && !(isUndefinedB (propAccess current key)) then propAccess current key
  else JValue.vUndefined

/-- script.js getNestedValue (lines 204-208): split on the dot and reduce
with the undefined sentinel. -/
def getNestedValue (obj : JValue) (path : String) : JValue :=
  (splitDot path).foldl resolveStepU obj

end Script

namespace Part002

/-- One step of the reduce in part_002 getNestedValue (lines 50-54):
`current && current[key] !== undefined ? current[key] : null`. -/
def resolveStepN (current : JValue) (key : String) : JValue :=
  if truthy current && !(isUndefinedB (propAccess current key)) then propAccess current key
  else JValue.vNull

/-- part_002 getNestedValue (lines 50-54): split on the dot and reduce
with the null sentinel. -/
def getNestedValue (obj : JValue) (path : String) : JValue :=
  (splitDot path).foldl resolveStepN obj

end Part002

namespace Part003

/-- The inline key walk of part_003 updateContent (lines 48-58):
`if (value && value[k]) value = value[k]; else { value = null; break; }`.
Note the truthiness test on `value[k]`, which drops falsy leaves. -/
def walkSegs : List String → JValue → JValue
  | [], v => v
  | k :: rest, v =>
    if truthy v && truthy (propAccess v k) then walkSegs rest (propAccess v k)
    else JValue.vNull

/-- The part_003 resolver applied to a dotted key. -/
def resolveKey (translations : JValue) (key : String) : JValue :=
  walkSegs (splitDot key) translations

end Part003

/-- Presence of a string value at a segment path inside a bundle: each
segment selects a field of the current object and the last one reaches the
stored string. -/
inductive StoredAt : JValue → List String → String → Prop where
  | nil (s : String) : StoredAt (JValue.vStr s) [] s
  | cons {fields : List (String × JValue)} {k : String} {ks : List String} {s : String} :
      StoredAt (lookupField fields k) ks s → StoredAt (JValue.vObj fields) (k :: ks) s

/-- Failure of a segment walk: the current value is not an object while
segments remain, the next field is missing, the terminal value is null, or
the walk fails deeper inside a present field. -/
inductive WalkFails : JValue → List String → Prop where
  | notObj (v : JValue) (k : String) (ks : List String) :
      (∀ fs, v ≠ JValue.vObj fs) → WalkFails v (k :: ks)
  | missing (fields : List (String × JValue)) (k : String) (ks : List String) :
      lookupField fields k = JValue.vUndefined → WalkFails (JValue.vObj fields) (k :: ks)
  | termNull (fields : List (String × JValue)) (k : String) :
      lookupField fields k = JValue.vNull → WalkFails (JValue.vObj fields) [k]
  | step (fields : List (String × JValue)) (k : String) (ks : List String) :
      WalkFails (lookupField fields k) ks → WalkFails (JValue.vObj fields) (k :: ks)

/-- A localized DOM element: its tag name, the data-i18n marker attribute,
and the writable sinks the synchronizers touch (text content, placeholder,
form value, image alt text, aria-label). -/
structure Elem where
  tag : String
  dataI18n : Option String
  text : String
  placeholder : Option String
  value : String
  alt : Option String
  ariaLabel : Option String
deriving Repr, DecidableEq

/-- A head link element (canonical or alternate hreflang). -/
structure Link where
  rel : String
  hreflang : Option String
  href : String
deriving Repr, DecidableEq

/-- The observable document state the synchronizers read and write. A
field of type Option String is `none` when the corresponding tag or
attribute is absent from the page (the scripts guard those writes with
existence checks). -/
structure Doc where
  title : String
  metaDescription : Option String
  ogTitle : Option String
  ogDescription : Option String
  twitterDescription : Option String
  ogUrl : Option String
  ogLocale : Option String
  langAttr : String
  selectorValue : Option String
  elems : List Elem
  links : List Link
deriving Repr, DecidableEq

/-- Outcome of the single i18n.json fetch: rejected or non-success status,
an unparseable body, or a parsed payload. -/
inductive FetchOutcome : Type where
  | networkError : FetchOutcome
  | parseError : FetchOutcome
  | success : JValue → FetchOutcome

namespace Script

/-- The per-element write of script.js updateContent (lines 173-192):
INPUT/TEXTAREA get the value as placeholder and, when the field is empty,
as value; IMG with an alt attribute gets it as alt; elements carrying an
aria-label get it as that label; every other element gets it as text. -/
def applyElem (translations : JValue) (e : Elem) : Elem :=
  match e.dataI18n with
  | none => e
  | some key =>
    let v := getNestedValue translations key
    if isPresent v then
      let s := jsToString v
      if e.tag = "INPUT" ∨ e.tag = "TEXTAREA" then
        { e with placeholder := some s, value := if e.value = "" then s else e.value }
      else if e.tag = "IMG" ∧ e.alt.isSome = true then
        { e with alt := some s }
      else if e.ariaLabel.isSome = true then
        { e with ariaLabel := some s }
      else
        { e with text := s }
    else e

/-- script.js updateContent (lines 156-201): an early return unless
translations.meta is truthy, then title, description meta, Open Graph
tags, the per-element loop, the lang attribute and the selector value.
The sequential statements are rendered as one record update; each
conditional embeds the corresponding existence check of the source. -/
def updateContent (translations : JValue) (currentLanguage : String) (d : Doc) : Doc :=
  if truthy (propAccess translations "meta") then
    { d with
      title := jsToString (propAccess (propAccess translations "meta") "title"),
      metaDescription :=
        if d.metaDescription.isSome then
          some (jsToString (propAccess (propAccess translations "meta") "description"))
        else d.metaDescription,
      ogTitle :=
        if d.ogTitle.isSome then
          some (jsToString (propAccess (propAccess translations "meta") "title"))
        else d.ogTitle,
      ogDescription :=
        if d.ogDescription.isSome then
          some (jsToString (propAccess (propAccess translations "meta") "description"))
        else d.ogDescription,
      elems := d.elems.map (applyElem translations),
      langAttr := currentLanguage,
      selectorValue := if d.selectorValue.isSome then some currentLanguage else d.selectorValue }
  else d

/-- script.js loadTranslations (lines 135-153), as a function of the cache
object, the fetch outcome and the requested language. Returns the value
handed to the caller together with the cache left behind: a truthy cached
entry is returned as is; on success the whole payload is cached and
`translations[lang] || an empty object` is returned; any failure is caught
and an empty object is returned. -/
def loadTranslations (cache : JValue) (outcome : FetchOutcome) (lang : String) :
    JValue × JValue :=
  if truthy (propAccess cache lang) then (propAccess cache lang, cache)
  else
    match outcome with
    | FetchOutcome.success payload =>
        (if truthy (propAccess payload lang) then propAccess payload lang else JValue.vObj [],
         payload)
    | FetchOutcome.networkError => (JValue.vObj [], cache)
    | FetchOutcome.parseError => (JValue.vObj [], cache)

/-- The language resolution of script.js initLanguage (lines 211-220):
`localStorage.getItem("preferredLanguage") || userLang` where userLang is
fr when the browser language starts with fr, else en. The URL is never
consulted by this variant. -/
def initLanguage (storedLang : Option String) (browserLang : String) : String :=
  let userLang := if strStartsWith browserLang "fr" then "fr" else "en"
  match storedLang with
  | none => userLang
  | some s => if s = "" then userLang else s

end Script

namespace Part002

/-- The fixed base URL of part_002 (line 153). -/
def baseURL : String := "https://izutech.fr"

/-- The per-element write of part_002 updateContent (lines 62-85): like
script.js for inputs and images, but the final branch writes the text
content and then additionally the aria-label when one is present. -/
def applyElem (translations : JValue) (e : Elem) : Elem :=
  match e.dataI18n with
  | none => e
  | some key =>
    let v := getNestedValue translations key
    if isPresent v then
      let s := jsToString v
      if e.tag = "INPUT" ∨ e.tag = "TEXTAREA" then
        { e with placeholder := some s, value := if e.value = "" then s else e.value }
      else if e.tag = "IMG" ∧ e.alt.isSome = true then
        { e with alt := some s }
      else
        { e with text := s,
                 ariaLabel := if e.ariaLabel.isSome then some s else e.ariaLabel }
    else e

/-- part_002 updateMetaTags (lines 98-128): title only when truthy, then
description meta, Open Graph description and Twitter description, each
guarded by the existence of the tag and the truthiness of the value. -/
def updateMetaTags (i18n : JValue) (lang : String) (d : Doc) : Doc :=
  if truthy (propAccess i18n lang) then
    let translations := propAccess i18n lang
    let title := getNestedValue translations "meta.title"
    let description := getNestedValue translations "meta.description"
    { d with
      title := if truthy title then jsToString title else d.title,
      metaDescription :=
        if truthy description ∧ d.metaDescription.isSome = true then some (jsToString description)
        else d.metaDescription,
      ogDescription :=
        if truthy description ∧ d.ogDescription.isSome = true then some (jsToString description)
        else d.ogDescription,
      twitterDescription :=
        if truthy description ∧ d.twitterDescription.isSome = true then some (jsToString description)
        else d.twitterDescription }
  else d

/-- Setting the href of the first canonical link in the head. -/
def setFirstCanonicalHref : List Link → String → List Link
  | [], _ => []
  | l :: ls, url =>
    if l.rel = "canonical" then { l with href := url } :: ls
    else l :: setFirstCanonicalHref ls url

/-- The existence test of `querySelector("link[rel=canonical]")`. -/
def isCanonB (l : Link) : Bool := if l.rel = "canonical" then true else false

/-- The canonical-link pass on the head links (part_002 lines 156-162):
reuse the first canonical link or append a new one, and point it at the
base URL. -/
def canonicalPass (ls : List Link) : List Link :=
  if ls.any isCanonB then setFirstCanonicalHref ls baseURL
  else ls ++ [⟨"canonical", none, baseURL⟩]

/-- part_002 updateCanonicalAndHreflang, canonical half, on the document. -/
def setCanonical (d : Doc) : Doc := { d with links := canonicalPass d.links }

/-- The removal predicate of part_002 updateHreflangTags (line 171): a
link survives unless it is an alternate link carrying an hreflang. -/
def keepLink (l : Link) : Bool :=
  if l.rel = "alternate" ∧ l.hreflang.isSome = true then false else true

/-- The link-list effect of part_002 updateHreflangTags (lines 169-201):
remove every hreflang-bearing alternate link, then append the en and fr
alternates, the fixed x-default pointing at the base URL, and the
self-referencing second x-default pointing at the current language URL. -/
def hreflangLinks (currentLang : String) (base : String) (ls : List Link) : List Link :=
  ls.filter keepLink ++
  [⟨"alternate", some "en", base⟩,
   ⟨"alternate", some "fr", base ++ "?lang=fr"⟩,
   ⟨"alternate", some "x-default", base⟩,
   ⟨"alternate", some "x-default",
    if currentLang = "en" then base else base ++ "?lang=" ++ currentLang⟩]

/-- part_002 updateHreflangTags on the document. -/
def updateHreflangTags (currentLang : String) (base : String) (d : Doc) : Doc :=
  { d with links := hreflangLinks currentLang base d.links }

/-- part_002 updateCanonicalAndHreflang (lines 152-166). -/
def updateCanonicalAndHreflang (lang : String) (d : Doc) : Doc :=
  updateHreflangTags lang baseURL (setCanonical d)

/-- part_002 updateSocialMetaTags (lines 221-236): og:url and og:locale,
each only when the tag exists. -/
def updateSocialMetaTags (lang : String) (d : Doc) : Doc :=
  { d with
    ogUrl :=
      if d.ogUrl.isSome then
        some (if lang = "en" then baseURL else baseURL ++ "?lang=" ++ lang)
      else d.ogUrl,
    ogLocale :=
      if d.ogLocale.isSome then some (if lang = "en" then "en_US" else "fr_FR")
      else d.ogLocale }

/-- part_002 updateContent (lines 57-95): an early return unless
i18n[lang] is truthy, then the per-element loop, the lang attribute,
updateMetaTags and updateCanonicalAndHreflang. The source invokes
updateSocialMetaTags once per matched element inside the forEach (line
84); the repeated identical writes are modeled as one application guarded
by the existence of at least one matched element. -/
def updateContent (i18n : JValue) (lang : String) (d : Doc) : Doc :=
  if truthy (propAccess i18n lang) then
    let translations := propAccess i18n lang
    let d1 := { d with elems := d.elems.map (applyElem translations) }
    let d2 :=
      if d.elems.any (fun e => e.dataI18n.isSome) then updateSocialMetaTags lang d1 else d1
    let d3 := { d2 with langAttr := lang }
    updateCanonicalAndHreflang lang (updateMetaTags i18n lang d3)
  else d

/-- part_002 initializeLanguage (lines 131-148): a URL language valid for
the closed set wins, then any truthy stored value (unvalidated), then the
browser primary subtag fr, then en. -/
def initializeLanguage (urlLang storedLang : Option String) (browserLang : String) : String :=
  if strOptTruthy urlLang ∧ (urlLang = some "en" ∨ urlLang = some "fr") then
    urlLang.getD "en"
  else if strOptTruthy storedLang then storedLang.getD "en"
  else if (splitChar '-' browserLang).headD "" = "fr" then "fr"
  else "en"

end Part002

namespace Part003

/-- JS member access `v[k]` in part_003 updateContent line 42, where the
receiver is not guarded: reading a property of undefined or null throws a
TypeError. -/
def memberAccess : JValue → String → Except String JValue
  | JValue.vUndefined, k =>
      Except.error ("TypeError: cannot read properties of undefined (reading " ++ k ++ ")")
  | JValue.vNull, k =>
      Except.error ("TypeError: cannot read properties of null (reading " ++ k ++ ")")
  | JValue.vObj fields, k => Except.ok (lookupField fields k)
  | JValue.vStr _, _ => Except.ok JValue.vUndefined

/-- The per-element write of part_003 updateContent (lines 46-69):
resolution by the truthiness walk, skip on null, placeholder for
INPUT/TEXTAREA, text content for LABEL and for everything else; the value,
alt and aria-label sinks are never written by this variant. -/
def applyElem (translations : JValue) (e : Elem) : Elem :=
  match e.dataI18n with
  | none => e
  | some key =>
    let v := resolveKey translations key
    if isNullB v then e
    else if e.tag = "INPUT" ∨ e.tag = "TEXTAREA" then
      { e with placeholder := some (jsToString v) }
    else
      { e with text := jsToString v }

/-- part_003 updateContent (lines 40-78). Line 42 reads
translations.meta.title with no guard, so an empty bundle makes the call
throw; line 43 calls setAttribute on the description meta tag with no
null check, so a page without that tag also throws. The remaining writes
(element loop, lang attribute, selector value) are pure. -/
def updateContent (translations : JValue) (currentLanguage : String) (d : Doc) :
    Except String Doc := do
  let meta ← memberAccess translations "meta"
  let title ← memberAccess meta "title"
  let d1 := { d with title := jsToString title }
  if d1.metaDescription.isSome = false then
    Except.error "TypeError: cannot read setAttribute of null"
  else do
    let description ← memberAccess meta "description"
    let d2 := { d1 with metaDescription := some (jsToString description) }
    let d3 := { d2 with elems := d2.elems.map (applyElem translations) }
    let d4 := { d3 with langAttr := currentLanguage }
    pure (if d4.selectorValue.isSome then { d4 with selectorValue := some currentLanguage } else d4)

/-- part_003 loadTranslations (lines 27-37): parse the payload and hand
back translations[lang]; any rejection along the chain is caught and an
empty object is returned. There is no response.ok check in this variant,
so a non-success status only fails if its body does not parse. -/
def loadTranslations (outcome : FetchOutcome) (lang : String) : JValue :=
  match outcome with
  | FetchOutcome.success payload => propAccess payload lang
  | FetchOutcome.networkError => JValue.vObj []
  | FetchOutcome.parseError => JValue.vObj []

end Part003

/-- The observable state of the mobile navigation overlay: the active
classes on the nav menu and the hamburger, and the aria-expanded flag. -/
structure MenuState where
  navMenuActive : Bool
  hamburgerActive : Bool
  ariaExpanded : Bool
deriving Repr, DecidableEq

/-- The closeMobileMenu routine shared by the variants: remove both active
classes and reset aria-expanded. -/
def closeMobileMenu (_ : MenuState) : MenuState :=
  { navMenuActive := false, hamburgerActive := false, ariaExpanded := false }

/-- The ambient inputs read when a page resolves its initial language: the
lang URL parameter, the two local-storage keys the variants use
(preferredLanguage for script.js, part_000 top, part_001, part_003, and
selectedLanguage for part_000 i18n, part_002), and the browser language. -/
structure StartupState where
  urlLang : Option String
  storedPreferredLanguage : Option String
  storedSelectedLanguage : Option String
  browserLanguage : String
deriving Repr, DecidableEq

/-- script.js initLanguage resolves only from the preferredLanguage key
and the browser language; window.location.search is never read by this
page, so the urlLang component of the startup state is ignored. -/
def Script.resolveInitialLanguage (st : StartupState) : String :=
  Script.initLanguage st.storedPreferredLanguage st.browserLanguage

/-- part_002 startup reads the lang URL parameter, the selectedLanguage
key and the browser language via initializeLanguage. -/
def Part002.resolveInitialLanguage (st : StartupState) : String :=
  Part002.initializeLanguage st.urlLang st.storedSelectedLanguage st.browserLanguage

/-- The page state mutated by the script.js language-selector change
handler (lines 223-231): the document, the mobile-menu overlay, the
currentLanguage variable and the persisted preference. -/
structure PageState where
  doc : Doc
  menu : MenuState
  currentLanguage : String
  storedPreferredLanguage : Option String
deriving Repr, DecidableEq

/-- The script.js change handler (lines 223-231): set currentLanguage,
persist it, load the bundle and run updateContent. The handler contains
no statement that touches the mobile menu. -/
def Script.changeHandler (st : PageState) (newLang : String) (cache : JValue)
    (outcome : FetchOutcome) : PageState :=
  let loaded := (Script.loadTranslations cache outcome newLang).1
  { st with
    currentLanguage := newLang,
    storedPreferredLanguage := some newLang,
    doc := Script.updateContent loaded newLang st.doc }

namespace Part000I18n

/-- The menu effect of the part_000 i18n updateContent (lines 345-348):
the sole statement touching the menu is closeMobileMenu, guarded by the
explicit isInitialLoad flag. Document writes live in the rest of the
function and neither read nor write the menu. -/
def updateContentMenu (isInitialLoad : Bool) (m : MenuState) : MenuState :=
  if !isInitialLoad then closeMobileMenu m else m

/-- The initial-load call sites pass the flag as true (both the success
and the fetch-failure path). -/
def initialLoadMenu (m : MenuState) : MenuState := updateContentMenu true m

/-- The language-selector change handler passes the flag as false. -/
def changeHandlerMenu (m : MenuState) : MenuState := updateContentMenu false m

end Part000I18n

namespace Part001

/-- The menu effect of the part_001 language-selector change handler
(lines 194-197): closeMobileMenu only when the viewport is at most 768
pixels wide and the menu is active. -/
def changeHandlerMenu (innerWidth : Nat) (m : MenuState) : MenuState :=
  if innerWidth ≤ 768 ∧ m.navMenuActive = true then closeMobileMenu m else m

end Part001

section LinkDefs

open Part002

/-- The classifier for x-default alternates, used to state the hreflang
invariant. -/
def isXDefault (l : Link) : Bool :=
  if l.rel = "alternate" ∧ l.hreflang = some "x-default" then true else false

/-- The canonical invariant: the first canonical link of the list, if
any, already points at the base URL, so a further canonical pass leaves
the list unchanged up to the existence check. -/
def CanonSet (ls : List Link) : Prop := setFirstCanonicalHref ls baseURL = ls

end LinkDefs

section WitnessData

/-- A concrete bundle used by the witnesses: the scenario bundle of the
spec, holding meta.title and meta.description. -/
def bundleW : JValue :=
  JValue.vObj [("meta", JValue.vObj [("title", JValue.vStr "Accueil"),
                                     ("description", JValue.vStr "Bienvenue")])]

/-- A concrete document used by the witnesses and counterexamples. -/
def docW : Doc :=
  { title := "Home", metaDescription := some "d", ogTitle := some "t",
    ogDescription := some "d", twitterDescription := none, ogUrl := some "u",
    ogLocale := some "en_US", langAttr := "en", selectorValue := some "en",
    elems := [], links := [] }

/-- A concrete paragraph element bound to a key that is absent from the
witness bundle. -/
def elemW : Elem :=
  { tag := "P", dataI18n := some "missing.key", text := "old", placeholder := none,
    value := "", alt := none, ariaLabel := none }

/-- A concrete empty input element bound to a present key. -/
def inputElemW : Elem :=
  { tag := "INPUT", dataI18n := some "form.name", text := "", placeholder := none,
    value := "", alt := none, ariaLabel := none }

/-- A concrete bundle storing a non-empty string under form.name. -/
def formBundleW : JValue :=
  JValue.vObj [("form", JValue.vObj [("name", JValue.vStr "Votre nom")])]

/-- A fully open mobile-menu state. -/
def openMenu : MenuState :=
  { navMenuActive := true, hamburgerActive := true, ariaExpanded := true }

end WitnessData

theorem truthy_undefined : truthy JValue.vUndefined = false := rfl

theorem truthy_null : truthy JValue.vNull = false := rfl

theorem truthy_obj (fs : List (String × JValue)) : truthy (JValue.vObj fs) = true := rfl

theorem isUndefinedB_undefined : isUndefinedB JValue.vUndefined = true := rfl

theorem isUndefinedB_null : isUndefinedB JValue.vNull = false := rfl

theorem storedAt_not_undefined {v : JValue} {ks : List String} {s : String}
    (h : StoredAt v ks s) : isUndefinedB v = false := by
  cases h <;> rfl

theorem storedAt_truthy {v : JValue} {ks : List String} {s : String}
    (h : StoredAt v ks s) (hs : s ≠ "") : truthy v = true := by
  cases h with
  | nil => simp [truthy, hs]
  | cons _ => rfl

theorem script_fold_undefined (ks : List String) :
    ks.foldl Script.resolveStepU JValue.vUndefined = JValue.vUndefined := by
  induction ks with
  | nil => rfl
  | cons k ks ih => simpa [Script.resolveStepU, truthy] using ih

theorem part002_fold_null (ks : List String) :
    ks.foldl Part002.resolveStepN JValue.vNull = JValue.vNull := by
  induction ks with
  | nil => rfl
  | cons k ks ih => simpa [Part002.resolveStepN, truthy] using ih

theorem storedAt_fold_undefined {obj : JValue} {ks : List String} {s : String}
    (h : StoredAt obj ks s) : ks.foldl Script.resolveStepU obj = JValue.vStr s := by
  induction h with
  | nil => rfl
  | cons h ih =>
    rename_i fields k ks' s'
    have hstep : Script.resolveStepU (JValue.vObj fields) k = lookupField fields k := by
      simp [Script.resolveStepU, truthy, propAccess, storedAt_not_undefined h]
    simpa [List.foldl_cons, hstep] using ih

theorem storedAt_fold_null {obj : JValue} {ks : List String} {s : String}
    (h : StoredAt obj ks s) : ks.foldl Part002.resolveStepN obj = JValue.vStr s := by
  induction h with
  | nil => rfl
  | cons h ih =>
    rename_i fields k ks' s'
    have hstep : Part002.resolveStepN (JValue.vObj fields) k = lookupField fields k := by
      simp [Part002.resolveStepN, truthy, propAccess, storedAt_not_undefined h]
    simpa [List.foldl_cons, hstep] using ih

theorem propAccess_of_notObj {v : JValue} (hv : ∀ fs, v ≠ JValue.vObj fs) (k : String) :
    propAccess v k = JValue.vUndefined := by
  cases v with
  | vObj fs => exact absurd rfl (hv fs)
  | vStr s => rfl
  | vNull => rfl
  | vUndefined => rfl

theorem walkFails_fold_undefined {obj : JValue} {ks : List String}
    (h : WalkFails obj ks) : absent (ks.foldl Script.resolveStepU obj) := by
  induction h with
  | notObj v k ks hv =>
    have : Script.resolveStepU v k = JValue.vUndefined := by
      simp [Script.resolveStepU, propAccess_of_notObj hv, isUndefinedB]
    exact Or.inl (by simpa [List.foldl_cons, this] using script_fold_undefined ks)
  | missing fields k ks hm =>
    have : Script.resolveStepU (JValue.vObj fields) k = JValue.vUndefined := by
      simp [Script.resolveStepU, propAccess, hm, isUndefinedB]
    exact Or.inl (by simpa [List.foldl_cons, this] using script_fold_undefined ks)
  | termNull fields k hn =>
    have : Script.resolveStepU (JValue.vObj fields) k = JValue.vNull := by
      simp [Script.resolveStepU, propAccess, hn, truthy, isUndefinedB]
    exact Or.inr (by simp [List.foldl_cons, this])
  | step fields k ks hsub ih =>
    cases hu : isUndefinedB (lookupField fields k) with
    | true =>
      have : Script.resolveStepU (JValue.vObj fields) k = JValue.vUndefined := by
        simp [Script.resolveStepU, propAccess, hu]
      exact Or.inl (by simpa [List.foldl_cons, this] using script_fold_undefined ks)
    | false =>
      have : Script.resolveStepU (JValue.vObj fields) k = lookupField fields k := by
        simp [Script.resolveStepU, propAccess, truthy_obj, hu]
      simpa [List.foldl_cons, this] using ih

theorem walkFails_fold_null {obj : JValue} {ks : List String}
    (h : WalkFails obj ks) : ks.foldl Part002.resolveStepN obj = JValue.vNull := by
  induction h with
  | notObj v k ks hv =>
    have : Part002.resolveStepN v k = JValue.vNull := by
      simp [Part002.resolveStepN, propAccess_of_notObj hv, isUndefinedB]
    simpa [List.foldl_cons, this] using part002_fold_null ks
  | missing fields k ks hm =>
    have : Part002.resolveStepN (JValue.vObj fields) k = JValue.vNull := by
      simp [Part002.resolveStepN, propAccess, hm, isUndefinedB]
    simpa [List.foldl_cons, this] using part002_fold_null ks
  | termNull fields k hn =>
    have : Part002.resolveStepN (JValue.vObj fields) k = JValue.vNull := by
      simp [Part002.resolveStepN, propAccess, hn, truthy, isUndefinedB]
    simp [List.foldl_cons, this]
  | step fields k ks hsub ih =>
    cases hu : isUndefinedB (lookupField fields k) with
    | true =>
      have : Part002.resolveStepN (JValue.vObj fields) k = JValue.vNull := by
        simp [Part002.resolveStepN, propAccess, hu]
      simpa [List.foldl_cons, this] using part002_fold_null ks
    | false =>
      have : Part002.resolveStepN (JValue.vObj fields) k = lookupField fields k := by
        simp [Part002.resolveStepN, propAccess, truthy_obj, hu]
      simpa [List.foldl_cons, this] using ih

theorem walkFails_walkSegs {obj : JValue} {ks : List String}
    (h : WalkFails obj ks) : Part003.walkSegs ks obj = JValue.vNull := by
  induction h with
  | notObj v k ks hv =>
    simp [Part003.walkSegs, propAccess_of_notObj hv, truthy_undefined]
  | missing fields k ks hm =>
    simp [Part003.walkSegs, propAccess, hm, truthy_undefined]
  | termNull fields k hn =>
    simp [Part003.walkSegs, propAccess, hn, truthy_null]
  | step fields k ks hsub ih =>
    cases ht : truthy (lookupField fields k) with
    | true => simpa [Part003.walkSegs, propAccess, truthy_obj, ht] using ih
    | false => simp [Part003.walkSegs, propAccess, truthy_obj, ht]

theorem storedAt_walkSegs {obj : JValue} {ks : List String} {s : String}
    (h : StoredAt obj ks s) (hs : s ≠ "") : Part003.walkSegs ks obj = JValue.vStr s := by
  induction h with
  | nil => rfl
  | cons h ih =>
    rename_i fields k ks' s'
    have ht : truthy (lookupField fields k) = true := storedAt_truthy h hs
    simpa [Part003.walkSegs, propAccess, truthy_obj, ht] using ih hs

section LinkLemmas

open Part002


theorem keepLink_not_xdefault {l : Link} (h : keepLink l = true) :
    isXDefault l = false := by
  unfold keepLink at h
  unfold isXDefault
  split_ifs with h1
  · rcases h1 with ⟨hr, hh⟩
    rw [if_pos ⟨hr, by simp [hh]⟩] at h
    exact absurd h (by simp)
  · rfl

theorem filter_keep_xdefault_nil (ls : List Link) :
    (ls.filter keepLink).filter isXDefault = [] := by
  induction ls with
  | nil => rfl
  | cons l ls ih =>
    cases h : keepLink l with
    | false => simpa [List.filter_cons, h] using ih
    | true => simp [List.filter_cons, h, keepLink_not_xdefault h, ih]

/-- After one hreflang pass, the x-default alternates are exactly the
fixed base link followed by the self-referencing link. -/
theorem hreflangLinks_xdefault (lang base : String) (ls : List Link) :
    (hreflangLinks lang base ls).filter isXDefault =
      [⟨"alternate", some "x-default", base⟩,
       ⟨"alternate", some "x-default",
        if lang = "en" then base else base ++ "?lang=" ++ lang⟩] := by
  unfold hreflangLinks
  rw [List.filter_append, filter_keep_xdefault_nil]
  rfl

theorem keepLink_canon {l : Link} (h : isCanonB l = true) : keepLink l = true := by
  unfold isCanonB at h
  unfold keepLink
  split_ifs with h1
  · rcases h1 with ⟨hr, _⟩
    rw [hr] at h
    exact absurd h (by decide)
  · rfl

theorem setFirstCanonicalHref_idem (ls : List Link) (u : String) :
    setFirstCanonicalHref (setFirstCanonicalHref ls u) u = setFirstCanonicalHref ls u := by
  induction ls with
  | nil => rfl
  | cons l ls ih =>
    unfold setFirstCanonicalHref
    split_ifs with h
    · simp [setFirstCanonicalHref, h]
    · simp [setFirstCanonicalHref, h, ih]

theorem setFirstCanonicalHref_no_canon {ls : List Link} (h : ls.any isCanonB = false)
    (u : String) : setFirstCanonicalHref ls u = ls := by
  induction ls with
  | nil => rfl
  | cons l ls ih =>
    rw [List.any_cons, Bool.or_eq_false_iff] at h
    have hl : ¬(l.rel = "canonical") := by
      intro hc
      simp [isCanonB, hc] at h
    simp [setFirstCanonicalHref, hl, ih h.2]


theorem canonSet_of_setFirst (ls : List Link) : CanonSet (setFirstCanonicalHref ls baseURL) :=
  setFirstCanonicalHref_idem ls baseURL

theorem canonSet_append_new {ls : List Link} (h : ls.any isCanonB = false) :
    CanonSet (ls ++ [⟨"canonical", none, baseURL⟩]) := by
  unfold CanonSet
  induction ls with
  | nil => simp [setFirstCanonicalHref]
  | cons l ls ih =>
    rw [List.any_cons, Bool.or_eq_false_iff] at h
    have hl : ¬(l.rel = "canonical") := by
      intro hc
      simp [isCanonB, hc] at h
    simp [setFirstCanonicalHref, hl, ih h.2]

theorem canonSet_canonicalPass (ls : List Link) : CanonSet (canonicalPass ls) := by
  unfold canonicalPass
  cases h : ls.any isCanonB with
  | true => simpa [h] using canonSet_of_setFirst ls
  | false => simpa [h] using canonSet_append_new h

theorem any_canon_setFirst (ls : List Link) (u : String) :
    (setFirstCanonicalHref ls u).any isCanonB = ls.any isCanonB := by
  induction ls with
  | nil => rfl
  | cons l ls ih =>
    unfold setFirstCanonicalHref
    split_ifs with h
    · simp [List.any_cons, isCanonB, h]
    · simp [List.any_cons, ih]

theorem any_canon_canonicalPass (ls : List Link) : (canonicalPass ls).any isCanonB = true := by
  unfold canonicalPass
  cases h : ls.any isCanonB with
  | true => rw [if_pos (by simp [h]), any_canon_setFirst, h]
  | false =>
    rw [if_neg (by simp [h])]
    simp [List.any_append, isCanonB]

theorem setFirstCanonicalHref_cons_pos {l : Link} (ls : List Link) (u : String)
    (hc : l.rel = "canonical") :
    setFirstCanonicalHref (l :: ls) u = { l with href := u } :: ls := by
  simp only [setFirstCanonicalHref]
  rw [if_pos hc]

theorem setFirstCanonicalHref_cons_neg {l : Link} (ls : List Link) (u : String)
    (hc : ¬(l.rel = "canonical")) :
    setFirstCanonicalHref (l :: ls) u = l :: setFirstCanonicalHref ls u := by
  simp only [setFirstCanonicalHref]
  rw [if_neg hc]

theorem canonSet_filter_append {ls : List Link} (h : CanonSet ls) (tl : List Link)
    (htl : tl.any isCanonB = false) : CanonSet (ls.filter keepLink ++ tl) := by
  unfold CanonSet at h ⊢
  induction ls with
  | nil => simpa using setFirstCanonicalHref_no_canon htl baseURL
  | cons l ls ih =>
    by_cases hc : l.rel = "canonical"
    · rw [setFirstCanonicalHref_cons_pos ls baseURL hc] at h
      have hl : ({ l with href := baseURL } : Link) = l :=
        ((List.cons.injEq _ _ _ _).mp h).1
      have hkeep : keepLink l = true := keepLink_canon (by simp [isCanonB, hc])
      rw [List.filter_cons, if_pos (by simp [hkeep]), List.cons_append,
        setFirstCanonicalHref_cons_pos _ baseURL hc, hl]
    · rw [setFirstCanonicalHref_cons_neg ls baseURL hc] at h
      have hrest : setFirstCanonicalHref ls baseURL = ls :=
        ((List.cons.injEq _ _ _ _).mp h).2
      rw [List.filter_cons]
      split_ifs with hk
      · rw [List.cons_append, setFirstCanonicalHref_cons_neg _ baseURL hc, ih hrest]
      · exact ih hrest

theorem any_canon_filter_keep {ls : List Link} (h : ls.any isCanonB = true) :
    (ls.filter keepLink).any isCanonB = true := by
  induction ls with
  | nil => simp at h
  | cons l ls ih =>
    rw [List.any_cons] at h
    cases hl : isCanonB l with
    | true =>
      rw [List.filter_cons, if_pos (by simp [keepLink_canon hl])]
      simp [List.any_cons, hl]
    | false =>
      have hls : ls.any isCanonB = true := by simpa [hl] using h
      rw [List.filter_cons]
      split_ifs with hk
      · simp [List.any_cons, ih hls]
      · exact ih hls

theorem filter_keep_idem (ls : List Link) :
    (ls.filter keepLink).filter keepLink = ls.filter keepLink := by
  induction ls with
  | nil => rfl
  | cons l ls ih =>
    rw [List.filter_cons]
    split_ifs with h
    · simp at h
      rw [List.filter_cons, if_pos (by simp [h]), ih]
    · exact ih

/-- The four appended hreflang links carry no canonical rel. -/
theorem hreflang_tail_no_canon (lang base : String) :
    (([⟨"alternate", some "en", base⟩,
       ⟨"alternate", some "fr", base ++ "?lang=fr"⟩,
       ⟨"alternate", some "x-default", base⟩,
       ⟨"alternate", some "x-default",
        if lang = "en" then base else base ++ "?lang=" ++ lang⟩] : List Link).any isCanonB)
      = false := rfl

/-- The four appended hreflang links are all removed by the keep filter. -/
theorem hreflang_tail_filtered (lang base : String) :
    (([⟨"alternate", some "en", base⟩,
       ⟨"alternate", some "fr", base ++ "?lang=fr"⟩,
       ⟨"alternate", some "x-default", base⟩,
       ⟨"alternate", some "x-default",
        if lang = "en" then base else base ++ "?lang=" ++ lang⟩] : List Link).filter keepLink)
      = [] := rfl

/-- The hreflang pass is stable on its own output once the canonical
invariant holds, and preserves the canonical invariant. -/
theorem hreflangLinks_idem (lang base : String) (ls : List Link) :
    hreflangLinks lang base (hreflangLinks lang base ls) = hreflangLinks lang base ls := by
  unfold hreflangLinks
  rw [List.filter_append, hreflang_tail_filtered, filter_keep_idem, List.append_nil]

theorem canonicalPass_stable {ls : List Link} (hset : CanonSet ls)
    (hany : ls.any isCanonB = true) : canonicalPass ls = ls := by
  unfold canonicalPass
  rw [if_pos (by simp [hany])]
  exact hset

/-- The full link pipeline of one part_002 updateContent call is stable:
a second canonical-then-hreflang pass reproduces the first. -/
theorem links_pipeline_idem (lang : String) (ls : List Link) :
    hreflangLinks lang Part002.baseURL
        (canonicalPass (hreflangLinks lang Part002.baseURL (canonicalPass ls))) =
      hreflangLinks lang Part002.baseURL (canonicalPass ls) := by
  have h1 : CanonSet (hreflangLinks lang Part002.baseURL (canonicalPass ls)) := by
    unfold hreflangLinks
    exact canonSet_filter_append (canonSet_canonicalPass ls) _
      (hreflang_tail_no_canon lang Part002.baseURL)
  have h2 : (hreflangLinks lang Part002.baseURL (canonicalPass ls)).any isCanonB = true := by
    unfold hreflangLinks
    rw [List.any_append]
    simp [any_canon_filter_keep (any_canon_canonicalPass ls)]
  rw [canonicalPass_stable h1 h2, hreflangLinks_idem]

end LinkLemmas

section ElemLemmas

theorem script_applyElem_idem (t : JValue) (e : Elem) :
    Script.applyElem t (Script.applyElem t e) = Script.applyElem t e := by
  cases e with
  | mk tag dI text ph val alt aria =>
    cases dI with
    | none => rfl
    | some key =>
      by_cases hp : isPresent (Script.getNestedValue t key) = true
      · by_cases h1 : ((tag : String) = "INPUT" ∨ tag = "TEXTAREA")
        · by_cases hv : val = ""
          · by_cases hs : jsToString (Script.getNestedValue t key) = "" <;>
              simp [Script.applyElem, hp, h1, hv, hs]
          · simp [Script.applyElem, hp, h1, hv]
        · by_cases h2 : ((tag : String) = "IMG" ∧ (alt : Option String).isSome = true)
          · obtain ⟨h2a, h2b⟩ := h2
            simp [Script.applyElem, hp, h1, h2a, h2b]
          · by_cases h3 : ((aria : Option String).isSome = true)
            · simp [Script.applyElem, hp, h1, h2, h3]
            · simp [Script.applyElem, hp, h1, h2, h3]
      · have hp' : isPresent (Script.getNestedValue t key) = false := by
          simpa using hp
        simp [Script.applyElem, hp']

theorem part002_applyElem_idem (t : JValue) (e : Elem) :
    Part002.applyElem t (Part002.applyElem t e) = Part002.applyElem t e := by
  cases e with
  | mk tag dI text ph val alt aria =>
    cases dI with
    | none => rfl
    | some key =>
      by_cases hp : isPresent (Part002.getNestedValue t key) = true
      · by_cases h1 : ((tag : String) = "INPUT" ∨ tag = "TEXTAREA")
        · by_cases hv : val = ""
          · by_cases hs : jsToString (Part002.getNestedValue t key) = "" <;>
              simp [Part002.applyElem, hp, h1, hv, hs]
          · simp [Part002.applyElem, hp, h1, hv]
        · by_cases h2 : ((tag : String) = "IMG" ∧ (alt : Option String).isSome = true)
          · obtain ⟨h2a, h2b⟩ := h2
            simp [Part002.applyElem, hp, h1, h2a, h2b]
          · by_cases h3 : ((aria : Option String).isSome = true)
            · simp [Part002.applyElem, hp, h1, h2, h3]
            · simp [Part002.applyElem, hp, h1, h2, h3]
      · have hp' : isPresent (Part002.getNestedValue t key) = false := by
          simpa using hp
        simp [Part002.applyElem, hp']

theorem script_applyElem_dataI18n (t : JValue) (e : Elem) :
    (Script.applyElem t e).dataI18n = e.dataI18n := by
  cases e with
  | mk tag dI text ph val alt aria =>
    cases dI with
    | none => rfl
    | some key =>
      simp only [Script.applyElem]
      split_ifs <;> rfl

theorem part002_applyElem_dataI18n (t : JValue) (e : Elem) :
    (Part002.applyElem t e).dataI18n = e.dataI18n := by
  cases e with
  | mk tag dI text ph val alt aria =>
    cases dI with
    | none => rfl
    | some key =>
      simp only [Part002.applyElem]
      split_ifs <;> rfl

theorem script_map_applyElem_idem (t : JValue) (l : List Elem) :
    (l.map (Script.applyElem t)).map (Script.applyElem t) = l.map (Script.applyElem t) := by
  induction l with
  | nil => rfl
  | cons e l ih => simp [script_applyElem_idem, ih]

theorem part002_map_applyElem_idem (t : JValue) (l : List Elem) :
    (l.map (Part002.applyElem t)).map (Part002.applyElem t) = l.map (Part002.applyElem t) := by
  induction l with
  | nil => rfl
  | cons e l ih => simp [part002_applyElem_idem, ih]

theorem part002_any_dataI18n_map (t : JValue) (l : List Elem) :
    (l.map (Part002.applyElem t)).any (fun e => e.dataI18n.isSome) =
      l.any (fun e => e.dataI18n.isSome) := by
  induction l with
  | nil => rfl
  | cons e l ih => simp [List.any_cons, part002_applyElem_dataI18n, ih]

end ElemLemmas

section IdempotenceLemmas

theorem script_updateContent_idem (t : JValue) (L : String) (d : Doc) :
    Script.updateContent t L (Script.updateContent t L d) = Script.updateContent t L d := by
  by_cases hm : truthy (propAccess t "meta") = true
  · cases d with
    | mk ti md ot od td ou ol la sv elems links =>
      simp only [Script.updateContent, hm, if_true]
      refine (Doc.mk.injEq _ _ _ _ _ _ _ _ _ _ _ _ _ _ _ _ _ _ _ _ _ _).mpr
        ⟨rfl, ?_, ?_, ?_, rfl, rfl, rfl, rfl, ?_, script_map_applyElem_idem t elems, rfl⟩
      · cases md <;> simp
      · cases ot <;> simp
      · cases od <;> simp
      · cases sv <;> simp
  · simp [Script.updateContent, hm]

/-- Explicit evaluation of part_002 updateContent when i18n[lang] is
truthy: each document field as a function of the prior state. -/
theorem part002_updateContent_eval (i18n : JValue) (L : String) (d : Doc)
    (h : truthy (propAccess i18n L) = true) :
    Part002.updateContent i18n L d =
      { title :=
          if truthy (Part002.getNestedValue (propAccess i18n L) "meta.title") = true then
            jsToString (Part002.getNestedValue (propAccess i18n L) "meta.title")
          else d.title,
        metaDescription :=
          if truthy (Part002.getNestedValue (propAccess i18n L) "meta.description") = true ∧
              d.metaDescription.isSome = true then
            some (jsToString (Part002.getNestedValue (propAccess i18n L) "meta.description"))
          else d.metaDescription,
        ogTitle := d.ogTitle,
        ogDescription :=
          if truthy (Part002.getNestedValue (propAccess i18n L) "meta.description") = true ∧
              d.ogDescription.isSome = true then
            some (jsToString (Part002.getNestedValue (propAccess i18n L) "meta.description"))
          else d.ogDescription,
        twitterDescription :=
          if truthy (Part002.getNestedValue (propAccess i18n L) "meta.description") = true ∧
              d.twitterDescription.isSome = true then
            some (jsToString (Part002.getNestedValue (propAccess i18n L) "meta.description"))
          else d.twitterDescription,
        ogUrl :=
          if (d.elems.any (fun e => e.dataI18n.isSome)) = true ∧ d.ogUrl.isSome = true then
            some (if L = "en" then Part002.baseURL else Part002.baseURL ++ "?lang=" ++ L)
          else d.ogUrl,
        ogLocale :=
          if (d.elems.any (fun e => e.dataI18n.isSome)) = true ∧ d.ogLocale.isSome = true then
            some (if L = "en" then "en_US" else "fr_FR")
          else d.ogLocale,
        langAttr := L,
        selectorValue := d.selectorValue,
        elems := d.elems.map (Part002.applyElem (propAccess i18n L)),
        links := Part002.hreflangLinks L Part002.baseURL (Part002.canonicalPass d.links) } := by
  cases d with
  | mk ti md ot od td ou ol la sv elems links =>
    by_cases ha : (elems.any (fun e => e.dataI18n.isSome)) = true
    · simp only [Part002.updateContent, Part002.updateSocialMetaTags, Part002.updateMetaTags,
        Part002.updateCanonicalAndHreflang, Part002.setCanonical, Part002.updateHreflangTags,
        h, if_true, ha]
      refine (Doc.mk.injEq _ _ _ _ _ _ _ _ _ _ _ _ _ _ _ _ _ _ _ _ _ _).mpr
        ⟨rfl, ?_, rfl, ?_, ?_, ?_, ?_, rfl, rfl, rfl, rfl⟩
      · by_cases hdesc :
          truthy (Part002.getNestedValue (propAccess i18n L) "meta.description") = true <;>
          cases md <;> simp [hdesc]
      · by_cases hdesc :
          truthy (Part002.getNestedValue (propAccess i18n L) "meta.description") = true <;>
          cases od <;> simp [hdesc]
      · by_cases hdesc :
          truthy (Part002.getNestedValue (propAccess i18n L) "meta.description") = true <;>
          cases td <;> simp [hdesc]
      · cases ou <;> simp
      · cases ol <;> simp
    · simp only [Part002.updateContent, Part002.updateSocialMetaTags, Part002.updateMetaTags,
        Part002.updateCanonicalAndHreflang, Part002.setCanonical, Part002.updateHreflangTags,
        h, if_true, ha]
      refine (Doc.mk.injEq _ _ _ _ _ _ _ _ _ _ _ _ _ _ _ _ _ _ _ _ _ _).mpr
        ⟨rfl, ?_, rfl, ?_, ?_, ?_, ?_, rfl, rfl, rfl, rfl⟩
      · by_cases hdesc :
          truthy (Part002.getNestedValue (propAccess i18n L) "meta.description") = true <;>
          cases md <;> simp [hdesc]
      · by_cases hdesc :
          truthy (Part002.getNestedValue (propAccess i18n L) "meta.description") = true <;>
          cases od <;> simp [hdesc]
      · by_cases hdesc :
          truthy (Part002.getNestedValue (propAccess i18n L) "meta.description") = true <;>
          cases td <;> simp [hdesc]
      · simp [ha]
      · simp [ha]

theorem part002_updateContent_idem (i18n : JValue) (L : String) (d : Doc) :
    Part002.updateContent i18n L (Part002.updateContent i18n L d) =
      Part002.updateContent i18n L d := by
  by_cases hm : truthy (propAccess i18n L) = true
  · rw [part002_updateContent_eval i18n L d hm,
      part002_updateContent_eval i18n L _ hm]
    cases d with
    | mk ti md ot od td ou ol la sv elems links =>
      refine (Doc.mk.injEq _ _ _ _ _ _ _ _ _ _ _ _ _ _ _ _ _ _ _ _ _ _).mpr
        ⟨?_, ?_, rfl, ?_, ?_, ?_, ?_, rfl, rfl,
         part002_map_applyElem_idem (propAccess i18n L) elems,
         links_pipeline_idem L links⟩
      · by_cases ht : truthy (Part002.getNestedValue (propAccess i18n L) "meta.title") = true <;>
          simp [ht]
      · by_cases hdesc :
          truthy (Part002.getNestedValue (propAccess i18n L) "meta.description") = true <;>
          cases md <;> simp [hdesc]
      · by_cases hdesc :
          truthy (Part002.getNestedValue (propAccess i18n L) "meta.description") = true <;>
          cases od <;> simp [hdesc]
      · by_cases hdesc :
          truthy (Part002.getNestedValue (propAccess i18n L) "meta.description") = true <;>
          cases td <;> simp [hdesc]
      · rw [part002_any_dataI18n_map]
        by_cases ha : (elems.any (fun e => e.dataI18n.isSome)) = true <;>
          cases ou <;> simp [ha]
      · rw [part002_any_dataI18n_map]
        by_cases ha : (elems.any (fun e => e.dataI18n.isSome)) = true <;>
          cases ol <;> simp [ha]
  · simp [Part002.updateContent, hm]

end IdempotenceLemmas

/-- C1 (amended): the getNestedValue resolvers of script.js and part_002
split the key on the dot and walk the nesting, returning the exact stored
string (including the empty string) for every present key, and an absent
result (undefined or null, never an exception) when an intermediate
segment is missing or not a mapping or the terminal value is
undefined or null; the inline key walk of part_003 agrees except that it
returns only non-empty stored strings, because its truthiness test drops
falsy leaves. -/
theorem C1_theorem : ∀ (obj : JValue) (path : String) (s : String),
    (StoredAt obj (splitDot path) s →
      Script.getNestedValue obj path = JValue.vStr s ∧
      Part002.getNestedValue obj path = JValue.vStr s) ∧
    (WalkFails obj (splitDot path) →
      absent (Script.getNestedValue obj path) ∧
      absent (Part002.getNestedValue obj path) ∧
      Part003.resolveKey obj path = JValue.vNull) ∧
    (StoredAt obj (splitDot path) s → s ≠ "" →
      Part003.resolveKey obj path = JValue.vStr s) := by
  intro obj path s
  refine ⟨fun h => ⟨storedAt_fold_undefined h, storedAt_fold_null h⟩,
    fun h => ⟨walkFails_fold_undefined h, Or.inr (walkFails_fold_null h),
      walkFails_walkSegs h⟩,
    fun h hs => storedAt_walkSegs h hs⟩

/-- Witness for C1: on the concrete scenario bundle the resolvers return
the stored title, a missing key resolves to an absent value, and the
part_003 walk agrees on the non-empty stored string. -/
theorem C1_witness :
    Script.getNestedValue bundleW "meta.title" = JValue.vStr "Accueil" ∧
    absent (Script.getNestedValue bundleW "missing.key") ∧
    Part003.resolveKey bundleW "meta.title" = JValue.vStr "Accueil" := by
  have h1 : StoredAt bundleW (splitDot "meta.title") "Accueil" :=
    StoredAt.cons (StoredAt.cons (StoredAt.nil "Accueil"))
  have h2 : WalkFails bundleW (splitDot "missing.key") :=
    WalkFails.missing _ "missing" ["key"] rfl
  exact ⟨((C1_theorem bundleW "meta.title" "Accueil").1 h1).1,
    ((C1_theorem bundleW "missing.key" "x").2.1 h2).1,
    (C1_theorem bundleW "meta.title" "Accueil").2.2 h1 (by decide)⟩

/-- Counterexample for C1: the bundle stores the empty string under key
a, yet the part_003 inline key walk resolves that key to null
(an absent result) instead of the stored empty string, because the walk
tests the leaf for truthiness. -/
theorem C1_counterexample :
    StoredAt (JValue.vObj [("a", JValue.vStr "")]) (splitDot "a") "" ∧
    Part003.resolveKey (JValue.vObj [("a", JValue.vStr "")]) "a" = JValue.vNull :=
  ⟨StoredAt.cons (StoredAt.nil ""), rfl⟩

/-- C2: applying the content synchronizer twice with the same bundle and
language leaves the document in the same observable state as applying it
once, for the script.js updateContent and for the part_002 updateContent
including its canonical and hreflang link rewriting. -/
theorem C2_theorem :
    (∀ (t : JValue) (L : String) (d : Doc),
      Script.updateContent t L (Script.updateContent t L d) = Script.updateContent t L d) ∧
    (∀ (i18n : JValue) (L : String) (d : Doc),
      Part002.updateContent i18n L (Part002.updateContent i18n L d) =
        Part002.updateContent i18n L d) :=
  ⟨script_updateContent_idem, part002_updateContent_idem⟩

/-- C3 (amended): in the part_000 and part_002 startup logic
(initializeLanguage) the priority order URL parameter, then stored
preference, then browser language, then en holds, and the concrete state
with URL fr, stored en, browser en resolves to fr; the script.js,
part_001 and part_003 startup logic (initLanguage) never consults the
URL parameter and resolves the same state to en. -/
theorem C3_theorem :
    (∀ (s : Option String) (b : String), Part002.initializeLanguage (some "fr") s b = "fr") ∧
    (∀ (u s : Option String) (b : String),
      strOptTruthy u = false → strOptTruthy s = true →
      Part002.initializeLanguage u s b = s.getD "en") ∧
    Part002.initializeLanguage none none "fr-FR" = "fr" ∧
    Part002.initializeLanguage none none "en-US" = "en" ∧
    Part002.resolveInitialLanguage
      { urlLang := some "fr", storedPreferredLanguage := some "en",
        storedSelectedLanguage := some "en", browserLanguage := "en" } = "fr" ∧
    (∀ st : StartupState, st.storedPreferredLanguage = some "en" →
      Script.resolveInitialLanguage st = "en") := by
  refine ⟨fun s b => rfl, ?_, rfl, rfl, rfl, ?_⟩
  · intro u s b hu hs
    unfold Part002.initializeLanguage
    rw [if_neg (by simp [hu])]
    rw [if_pos (by simp [hs])]
  · intro st h
    unfold Script.resolveInitialLanguage Script.initLanguage
    rw [h]
    simp

/-- Witness for C3: with no URL signal a stored preference of en wins in
initializeLanguage, and a startup state storing en resolves to en under
the script.js logic. -/
theorem C3_witness :
    Part002.initializeLanguage none (some "en") "fr-FR" = "en" ∧
    Script.resolveInitialLanguage
      { urlLang := some "fr", storedPreferredLanguage := some "en",
        storedSelectedLanguage := some "en", browserLanguage := "en" } = "en" :=
  ⟨C3_theorem.2.1 none (some "en") "fr-FR" rfl rfl,
   C3_theorem.2.2.2.2.2 _ rfl⟩

/-- Counterexample for C3: at the startup state with URL lang fr, stored
preference en and browser locale en, the script.js page resolves its
initial language from initLanguage, which never reads the URL, so the
result is not fr. -/
theorem C3_counterexample :
    Script.resolveInitialLanguage
      { urlLang := some "fr", storedPreferredLanguage := some "en",
        storedSelectedLanguage := some "en", browserLanguage := "en" } ≠ "fr" := by
  decide

/-- C4: on a failed bundle fetch the part_003 loader resolves with the
empty object, and the subsequent part_003 updateContent call on that
empty result throws a TypeError while reading translations.meta.title,
instead of degrading to fallback content without an error. -/
theorem C4_theorem :
    Part003.updateContent (Part003.loadTranslations FetchOutcome.networkError "en") "en" docW =
      Except.error "TypeError: cannot read properties of undefined (reading title)" := rfl

/-- C5 (amended): every loader failure (unreachable resource, non-success
status, unparseable payload) is caught and resolves with the plain empty
object after logging; the caller receives no NetworkError or ParseError
outcome, so a failure is indistinguishable from a successfully loaded
empty bundle. -/
theorem C5_theorem : ∀ (cache : JValue) (lang : String),
    truthy (propAccess cache lang) = false →
    (Script.loadTranslations cache FetchOutcome.networkError lang).1 = JValue.vObj [] ∧
    (Script.loadTranslations cache FetchOutcome.parseError lang).1 = JValue.vObj [] ∧
    Part003.loadTranslations FetchOutcome.networkError lang = JValue.vObj [] ∧
    Part003.loadTranslations FetchOutcome.parseError lang = JValue.vObj [] := by
  intro cache lang h
  refine ⟨?_, ?_, rfl, rfl⟩ <;> simp [Script.loadTranslations, h]

/-- Witness for C5: with an empty cache a network failure hands the
caller the empty object. -/
theorem C5_witness :
    (Script.loadTranslations (JValue.vObj []) FetchOutcome.networkError "en").1 =
      JValue.vObj [] :=
  (C5_theorem (JValue.vObj []) "en" rfl).1

/-- Counterexample for C5: a failed fetch and a successful fetch of a
payload whose fr bundle is empty hand the caller the very same value, so
there is no explicit failure signal. -/
theorem C5_counterexample :
    (Script.loadTranslations (JValue.vObj []) FetchOutcome.networkError "fr").1 =
    (Script.loadTranslations (JValue.vObj [])
        (FetchOutcome.success (JValue.vObj [("fr", JValue.vObj [])])) "fr").1 := rfl

/-- C6 (amended): only the URL language parameter is validated against
the closed set; a truthy stored value is adopted verbatim, so an
unsupported stored code does become the resolved language; it still never
causes a resolution failure, because updateContent returns early when the
bundle for the current language is missing. -/
theorem C6_theorem :
    (∀ (u s : Option String) (b : String), u ≠ some "en" → u ≠ some "fr" →
      Part002.initializeLanguage u s b = Part002.initializeLanguage none s b) ∧
    (∀ (s : Option String) (b : String), strOptTruthy s = true →
      Part002.initializeLanguage none s b = s.getD "en") ∧
    (∀ (i18n : JValue) (lang : String) (d : Doc), truthy (propAccess i18n lang) = false →
      Part002.updateContent i18n lang d = d) ∧
    (∀ (lang : String) (d : Doc), Script.updateContent (JValue.vObj []) lang d = d) := by
  refine ⟨?_, ?_, ?_, fun lang d => rfl⟩
  · intro u s b hu1 hu2
    unfold Part002.initializeLanguage
    have hcond : ¬(strOptTruthy u = true ∧ (u = some "en" ∨ u = some "fr")) := by
      simp [hu1, hu2]
    have hcond2 : ¬(strOptTruthy (none : Option String) = true ∧
        ((none : Option String) = some "en" ∨ (none : Option String) = some "fr")) := by
      simp [strOptTruthy]
    rw [if_neg hcond, if_neg hcond2]
  · intro s b hs
    unfold Part002.initializeLanguage
    have hcond : ¬(strOptTruthy (none : Option String) = true ∧
        ((none : Option String) = some "en" ∨ (none : Option String) = some "fr")) := by
      simp [strOptTruthy]
    rw [if_neg hcond, if_pos (by simp [hs])]
  · intro i18n lang d h
    simp [Part002.updateContent, h]

/-- Witness for C6: an unsupported URL code xx falls through to the
stored value, and an empty bundle set leaves the document untouched. -/
theorem C6_witness :
    Part002.initializeLanguage (some "xx") (some "yy") "en" = "yy" ∧
    Part002.updateContent (JValue.vObj []) "xx" docW = docW :=
  ⟨(C6_theorem.1 (some "xx") (some "yy") "en" (by decide) (by decide)).trans
      (C6_theorem.2.1 (some "yy") "en" rfl),
   C6_theorem.2.2.1 (JValue.vObj []) "xx" docW rfl⟩

/-- Counterexample for C6: a stored value xx outside the closed set is
adopted as the resolved language by initializeLanguage instead of being
coerced to en, and likewise by the script.js initLanguage. -/
theorem C6_counterexample :
    Part002.initializeLanguage none (some "xx") "en" = "xx" ∧
    Part002.initializeLanguage none (some "xx") "en" ≠ "en" ∧
    Script.initLanguage (some "zz") "en" = "zz" :=
  ⟨rfl, by decide, rfl⟩

/-- C7: for an element bound to a key whose walk fails on the bundle,
every resolver returns an absent result and every updateContent variant
leaves the element completely unchanged. -/
theorem C7_theorem : ∀ (t : JValue) (k : String) (e : Elem),
    e.dataI18n = some k →
    WalkFails t (splitDot k) →
    absent (Script.getNestedValue t k) ∧
    absent (Part002.getNestedValue t k) ∧
    Part003.resolveKey t k = JValue.vNull ∧
    Script.applyElem t e = e ∧
    Part002.applyElem t e = e ∧
    Part003.applyElem t e = e := by
  intro t k e hk hw
  have hS : absent (Script.getNestedValue t k) := walkFails_fold_undefined hw
  have hN : Part002.getNestedValue t k = JValue.vNull := walkFails_fold_null hw
  have h3 : Part003.resolveKey t k = JValue.vNull := walkFails_walkSegs hw
  have hpres : isPresent (Script.getNestedValue t k) = false := by
    rcases hS with h | h <;> simp [isPresent, h, isUndefinedB, isNullB]
  have hpresN : isPresent (Part002.getNestedValue t k) = false := by
    simp [isPresent, hN, isNullB]
  refine ⟨hS, Or.inr hN, h3, ?_, ?_, ?_⟩
  · cases e with
    | mk tag dI text ph val alt aria =>
      simp only at hk
      subst hk
      simp [Script.applyElem, hpres]
  · cases e with
    | mk tag dI text ph val alt aria =>
      simp only at hk
      subst hk
      simp [Part002.applyElem, hpresN]
  · cases e with
    | mk tag dI text ph val alt aria =>
      simp only at hk
      subst hk
      simp [Part003.applyElem, h3, isNullB]

/-- Witness for C7: the witness element keyed missing.key is untouched by
the script.js per-element write, and the resolver yields an absent
value. -/
theorem C7_witness :
    Script.applyElem bundleW elemW = elemW ∧
    absent (Script.getNestedValue bundleW "missing.key") := by
  have hw : WalkFails bundleW (splitDot "missing.key") :=
    WalkFails.missing _ "missing" ["key"] rfl
  have h := C7_theorem bundleW "missing.key" elemW rfl hw
  exact ⟨h.2.2.2.1, h.1⟩

/-- C8 (amended): the element-kind dispatch of the claim holds for the
script.js variant (placeholder plus value-when-empty for form inputs, alt
for images with alt, the label for aria-label carriers, text content for
the rest); the part_002 variant additionally overwrites the text content
of aria-label carriers; the part_003 variant writes only the placeholder
for form inputs (never the value) and text content for everything else. -/
theorem C8_theorem : ∀ (t : JValue) (e : Elem) (k s : String),
    e.dataI18n = some k →
    (Script.getNestedValue t k = JValue.vStr s →
      ((e.tag = "INPUT" ∨ e.tag = "TEXTAREA") →
        Script.applyElem t e =
          { e with placeholder := some s, value := if e.value = "" then s else e.value }) ∧
      (¬(e.tag = "INPUT" ∨ e.tag = "TEXTAREA") → e.tag = "IMG" → e.alt.isSome = true →
        Script.applyElem t e = { e with alt := some s }) ∧
      (¬(e.tag = "INPUT" ∨ e.tag = "TEXTAREA") → ¬(e.tag = "IMG" ∧ e.alt.isSome = true) →
        e.ariaLabel.isSome = true →
        Script.applyElem t e = { e with ariaLabel := some s }) ∧
      (¬(e.tag = "INPUT" ∨ e.tag = "TEXTAREA") → ¬(e.tag = "IMG" ∧ e.alt.isSome = true) →
        e.ariaLabel = none →
        Script.applyElem t e = { e with text := s })) ∧
    (Part002.getNestedValue t k = JValue.vStr s →
      ¬(e.tag = "INPUT" ∨ e.tag = "TEXTAREA") → ¬(e.tag = "IMG" ∧ e.alt.isSome = true) →
      e.ariaLabel.isSome = true →
      Part002.applyElem t e = { e with text := s, ariaLabel := some s }) ∧
    (Part003.resolveKey t k = JValue.vStr s →
      (e.tag = "INPUT" ∨ e.tag = "TEXTAREA") →
      Part003.applyElem t e = { e with placeholder := some s }) := by
  intro t e k s hk
  cases e with
  | mk tag dI text ph val alt aria =>
    simp only at hk
    subst hk
    refine ⟨fun hres => ?_, fun hres h1 h2 h3 => ?_, fun hres h1 => ?_⟩
    · refine ⟨fun h1 => ?_, fun h1 h2 h3 => ?_, fun h1 h2 h3 => ?_, fun h1 h2 h3 => ?_⟩
      · simp [Script.applyElem, h1, hres, jsToString, isPresent, isUndefinedB, isNullB]
      · have h2' : tag = "IMG" := h2
        subst h2'
        simp [Script.applyElem, h1, h3, hres, jsToString, isPresent, isUndefinedB, isNullB]
      · simp [Script.applyElem, h1, h2, h3, hres, jsToString, isPresent, isUndefinedB, isNullB]
      · have h3' : aria = none := h3
        subst h3'
        simp [Script.applyElem, h1, h2, hres, jsToString, isPresent, isUndefinedB, isNullB]
    · simp [Part002.applyElem, h1, h2, h3, hres, jsToString, isPresent, isUndefinedB, isNullB]
    · simp [Part003.applyElem, hres, isNullB, h1, jsToString]

/-- Witness for C8: an empty input bound to a present key receives the
string as placeholder and as value under the script.js dispatch. -/
theorem C8_witness :
    Script.applyElem formBundleW inputElemW =
      { inputElemW with placeholder := some "Votre nom", value := "Votre nom" } := by
  have h := ((C8_theorem formBundleW inputElemW "form.name" "Votre nom" rfl).1 rfl).1
    (Or.inl rfl)
  simpa using h

/-- Counterexample for C8: under the part_003 dispatch the same empty
input receives the resolved string only as placeholder; its value stays
empty, contradicting the claimed value-when-empty write. -/
theorem C8_counterexample :
    (Part003.applyElem formBundleW inputElemW).value = "" ∧
    (Part003.applyElem formBundleW inputElemW).placeholder = some "Votre nom" :=
  ⟨rfl, rfl⟩

/-- C9 (amended): the part_000 i18n variant threads the explicit
isInitialLoad flag and closes the mobile menu exactly on user-initiated
changes, never on the initial load; but the script.js change handler
leaves the menu untouched on every language change, and the part_001
handler closes it only on viewports of at most 768 pixels. -/
theorem C9_theorem :
    (∀ m : MenuState, Part000I18n.changeHandlerMenu m =
      { navMenuActive := false, hamburgerActive := false, ariaExpanded := false }) ∧
    (∀ m : MenuState, Part000I18n.initialLoadMenu m = m) ∧
    (∀ (st : PageState) (newLang : String) (cache : JValue) (outcome : FetchOutcome),
      (Script.changeHandler st newLang cache outcome).menu = st.menu) ∧
    (∀ (w : Nat) (m : MenuState), 768 < w → m.navMenuActive = true →
      Part001.changeHandlerMenu w m = m) := by
  refine ⟨fun m => rfl, fun m => rfl, fun st newLang cache outcome => rfl, ?_⟩
  intro w m hw _
  unfold Part001.changeHandlerMenu
  rw [if_neg]
  intro hcon
  exact absurd hcon.1 (by omega)

/-- Witness for C9: on a wide viewport the part_001 handler leaves the
open menu open, and the script.js handler preserves any menu state. -/
theorem C9_witness :
    Part001.changeHandlerMenu 1024 openMenu = openMenu ∧
    (Script.changeHandler
        { doc := docW, menu := openMenu, currentLanguage := "en",
          storedPreferredLanguage := none } "fr" (JValue.vObj [])
        FetchOutcome.parseError).menu = openMenu :=
  ⟨C9_theorem.2.2.2 1024 openMenu (by decide) rfl,
   C9_theorem.2.2.1 _ _ _ _⟩

/-- Counterexample for C9: a user-initiated language change through the
script.js handler leaves a fully open mobile menu open, so the overlay is
not closed on every user-initiated change and no initial-load flag exists
in that handler. -/
theorem C9_counterexample :
    (Script.changeHandler
        { doc := docW, menu := openMenu, currentLanguage := "en",
          storedPreferredLanguage := some "en" } "fr" (JValue.vObj [])
        FetchOutcome.networkError).menu = openMenu := rfl

/-- C10: after every call of the part_002 updateHreflangTags the head
contains exactly two x-default alternate links, the fixed base link and
the self-referencing one, and a repeated call reproduces exactly the same
pair, so the count never grows and is never one. -/
theorem C10_theorem : ∀ (lang base : String) (d : Doc),
    ((Part002.updateHreflangTags lang base d).links.filter isXDefault) =
      [⟨"alternate", some "x-default", base⟩,
       ⟨"alternate", some "x-default",
        if lang = "en" then base else base ++ "?lang=" ++ lang⟩] ∧
    ((Part002.updateHreflangTags lang base d).links.filter isXDefault).length = 2 ∧
    ((Part002.updateHreflangTags lang base
        (Part002.updateHreflangTags lang base d)).links.filter isXDefault).length = 2 := by
  intro lang base d
  refine ⟨hreflangLinks_xdefault lang base d.links, ?_, ?_⟩ <;>
    simp only [Part002.updateHreflangTags] <;> rw [hreflangLinks_xdefault] <;> rfl
